import Mathlib

/-!
Verification development for the VOLK dispatch/kernel sources.

Embedding conventions.

Kernel arithmetic is modelled exactly over `ℚ`: every C `float` value becomes a
rational, so every arithmetic reassociation performed by a SIMD variant
(horizontal adds, per-lane accumulators, fused multiply-add) is value-preserving
in the model.  C pointers into float buffers become functions `ℕ → ℚ` (index
`j` is `ptr[j]`); the element count `num_points` is an explicit `ℕ` argument.
Accumulation loops become `Finset.range` sums: `ℚ` addition is commutative and
associative, so the sequential order of a C accumulation loop and the grouping
of a SIMD reduction tree are both invisible to the model, and the per-lane
structure (which element feeds which accumulator lane) is kept explicit.
Multiplication operand order (`x * c` vs `c * x`) is likewise immaterial and is
not always mirrored.

The deinterleave kernel performs no arithmetic at all, only data movement, so it
is embedded polymorphically in the element type `α`; the SIMD permutation
intrinsics are modelled lane-for-lane.

The machine-descriptor generator and the dispatcher are driven by code that is
not part of the given sources (the template's `kern.get_impls` and the runtime
rank/selection routines); those parts are modelled from the spec, as marked in
their doc comments.
-/

/-- Clamped load: `MAX(src0[j], *cutoff)`, the first step of every loop body of
`volk_32f_x3_sum_of_poly_32f` (`MAX(X, Y) = X > Y ? X : Y`, which agrees with
`max` on a linear order). -/
def clampAt (src0 : ℕ → ℚ) (cutoff : ℚ) (j : ℕ) : ℚ := max (src0 j) cutoff

/-- Canonical per-element polynomial value computed (up to reassociation) by
every implementation of `volk_32f_x3_sum_of_poly_32f`: with `y` the clamped
input, `c1*y + c2*y^2 + c3*y^3 + c4*y^4` where `c1..c4` are
`center_point_array[0..3]`. -/
def polyT (cpa : ℕ → ℚ) (cutoff x : ℚ) : ℚ :=
  cpa 0 * max x cutoff + cpa 1 * max x cutoff ^ 2 + cpa 2 * max x cutoff ^ 3 +
    cpa 3 * max x cutoff ^ 4

/-- Closed form of the kernel's exact value: sum of the per-element polynomial
terms plus `num_points * center_point_array[4]` (proof-side reference value). -/
def sumOfPolyVal (src0 cpa : ℕ → ℚ) (cutoff : ℚ) (num_points : ℕ) : ℚ :=
  (∑ j ∈ Finset.range num_points, polyT cpa cutoff (src0 j)) +
    (num_points : ℚ) * cpa 4

/-- Loop-body term of `volk_32f_x3_sum_of_poly_32f_generic`: `sq = fst*fst`,
`thrd = fst*sq`, `frth = fst*thrd`, accumulating
`(c0*fst + c1*sq) + (c2*thrd + c3*frth)`. -/
def termGeneric (cpa : ℕ → ℚ) (cutoff x : ℚ) : ℚ :=
  (cpa 0 * max x cutoff + cpa 1 * (max x cutoff * max x cutoff)) +
    (cpa 2 * (max x cutoff * (max x cutoff * max x cutoff)) +
      cpa 3 * (max x cutoff * (max x cutoff * (max x cutoff * max x cutoff))))

/-- Loop-body term with the fourth power built as `sq*sq`: the SSE3 vector body
(`xmm5 = sq*sq`) and the scalar tail loops of the SSE3/AVX/FMA/neonvert
variants (`frth = sq * sq`). -/
def termSq (cpa : ℕ → ℚ) (cutoff x : ℚ) : ℚ :=
  (cpa 0 * max x cutoff + cpa 1 * (max x cutoff * max x cutoff)) +
    (cpa 2 * (max x cutoff * (max x cutoff * max x cutoff)) +
      cpa 3 * ((max x cutoff * max x cutoff) * (max x cutoff * max x cutoff)))

/-- Vector-body term of the AVX and AVX2-FMA variants: powers built as
`x2 = x*x`, `x3 = x*x2`, `x4 = x*x3`, products `x_to_k * cpa[k-1]`.  The FMA
variant computes `fmadd(x1, c0, x2*c1)` and `fmadd(x3, c2, x4*c3)`, which in
exact arithmetic is the same expression. -/
def termAvx (cpa : ℕ → ℚ) (cutoff x : ℚ) : ℚ :=
  (max x cutoff * cpa 0 + (max x cutoff * max x cutoff) * cpa 1) +
    ((max x cutoff * (max x cutoff * max x cutoff)) * cpa 2 +
      (max x cutoff * (max x cutoff * (max x cutoff * max x cutoff))) * cpa 3)

/-- Generic (fallback) implementation of `volk_32f_x3_sum_of_poly_32f`: eight
scalar accumulators `result[k]`, `k`-th one taking elements `8*i+k` of each
8-block, pairwise reduced; then a scalar tail over the `num_points mod 8`
leftovers starting at `eighth_points*8`; finally `num_points * cpa[4]` is
added. -/
def volk_32f_x3_sum_of_poly_32f_generic (src0 cpa : ℕ → ℚ) (cutoff : ℚ)
    (num_points : ℕ) : ℚ :=
  (∑ i ∈ Finset.range (num_points / 8), termGeneric cpa cutoff (src0 (8 * i))) +
    (∑ i ∈ Finset.range (num_points / 8), termGeneric cpa cutoff (src0 (8 * i + 1))) +
    (∑ i ∈ Finset.range (num_points / 8), termGeneric cpa cutoff (src0 (8 * i + 2))) +
    (∑ i ∈ Finset.range (num_points / 8), termGeneric cpa cutoff (src0 (8 * i + 3))) +
    (∑ i ∈ Finset.range (num_points / 8), termGeneric cpa cutoff (src0 (8 * i + 4))) +
    (∑ i ∈ Finset.range (num_points / 8), termGeneric cpa cutoff (src0 (8 * i + 5))) +
    (∑ i ∈ Finset.range (num_points / 8), termGeneric cpa cutoff (src0 (8 * i + 6))) +
    (∑ i ∈ Finset.range (num_points / 8), termGeneric cpa cutoff (src0 (8 * i + 7))) +
    (∑ i ∈ Finset.range (num_points - num_points / 8 * 8),
      termGeneric cpa cutoff (src0 (num_points / 8 * 8 + i))) +
    (num_points : ℚ) * cpa 4

/-- SSE3 implementation: `bound = num_points/8` iterations, each of which feeds
elements `8*i+l` (`l<4`) into lane `l` of `xmm9` and elements `8*i+4+l` into
lane `l` of `xmm1`; the two registers are reduced with horizontal adds; a
scalar tail handles `leftovers = num_points - 8*bound` elements starting at
`8*bound`. -/
def volk_32f_x3_sum_of_poly_32f_a_sse3 (src0 cpa : ℕ → ℚ) (cutoff : ℚ)
    (num_points : ℕ) : ℚ :=
  (∑ i ∈ Finset.range (num_points / 8), termSq cpa cutoff (src0 (8 * i))) +
    (∑ i ∈ Finset.range (num_points / 8), termSq cpa cutoff (src0 (8 * i + 1))) +
    (∑ i ∈ Finset.range (num_points / 8), termSq cpa cutoff (src0 (8 * i + 2))) +
    (∑ i ∈ Finset.range (num_points / 8), termSq cpa cutoff (src0 (8 * i + 3))) +
    (∑ i ∈ Finset.range (num_points / 8), termSq cpa cutoff (src0 (8 * i + 4))) +
    (∑ i ∈ Finset.range (num_points / 8), termSq cpa cutoff (src0 (8 * i + 5))) +
    (∑ i ∈ Finset.range (num_points / 8), termSq cpa cutoff (src0 (8 * i + 6))) +
    (∑ i ∈ Finset.range (num_points / 8), termSq cpa cutoff (src0 (8 * i + 7))) +
    (∑ i ∈ Finset.range (num_points - 8 * (num_points / 8)),
      termSq cpa cutoff (src0 (8 * (num_points / 8) + i))) +
    (num_points : ℚ) * cpa 4

/-- AVX implementation: one 8-lane accumulator `target_vec`, lane `l` taking
element `8*i+l` of each 8-block, reduced by `hadd` and four scalar adds; scalar
tail from `eighth_points*8`. -/
def volk_32f_x3_sum_of_poly_32f_a_avx (src0 cpa : ℕ → ℚ) (cutoff : ℚ)
    (num_points : ℕ) : ℚ :=
  (∑ i ∈ Finset.range (num_points / 8), termAvx cpa cutoff (src0 (8 * i))) +
    (∑ i ∈ Finset.range (num_points / 8), termAvx cpa cutoff (src0 (8 * i + 1))) +
    (∑ i ∈ Finset.range (num_points / 8), termAvx cpa cutoff (src0 (8 * i + 2))) +
    (∑ i ∈ Finset.range (num_points / 8), termAvx cpa cutoff (src0 (8 * i + 3))) +
    (∑ i ∈ Finset.range (num_points / 8), termAvx cpa cutoff (src0 (8 * i + 4))) +
    (∑ i ∈ Finset.range (num_points / 8), termAvx cpa cutoff (src0 (8 * i + 5))) +
    (∑ i ∈ Finset.range (num_points / 8), termAvx cpa cutoff (src0 (8 * i + 6))) +
    (∑ i ∈ Finset.range (num_points / 8), termAvx cpa cutoff (src0 (8 * i + 7))) +
    (∑ i ∈ Finset.range (num_points - num_points / 8 * 8),
      termSq cpa cutoff (src0 (num_points / 8 * 8 + i))) +
    (num_points : ℚ) * cpa 4

/-- AVX2-FMA implementation: same loop structure and memory-access pattern as
the AVX variant; `fmadd` is exact in the rational model, so the vector term is
the same `termAvx`. -/
def volk_32f_x3_sum_of_poly_32f_a_avx2_fma (src0 cpa : ℕ → ℚ) (cutoff : ℚ)
    (num_points : ℕ) : ℚ :=
  (∑ i ∈ Finset.range (num_points / 8), termAvx cpa cutoff (src0 (8 * i))) +
    (∑ i ∈ Finset.range (num_points / 8), termAvx cpa cutoff (src0 (8 * i + 1))) +
    (∑ i ∈ Finset.range (num_points / 8), termAvx cpa cutoff (src0 (8 * i + 2))) +
    (∑ i ∈ Finset.range (num_points / 8), termAvx cpa cutoff (src0 (8 * i + 3))) +
    (∑ i ∈ Finset.range (num_points / 8), termAvx cpa cutoff (src0 (8 * i + 4))) +
    (∑ i ∈ Finset.range (num_points / 8), termAvx cpa cutoff (src0 (8 * i + 5))) +
    (∑ i ∈ Finset.range (num_points / 8), termAvx cpa cutoff (src0 (8 * i + 6))) +
    (∑ i ∈ Finset.range (num_points / 8), termAvx cpa cutoff (src0 (8 * i + 7))) +
    (∑ i ∈ Finset.range (num_points - num_points / 8 * 8),
      termSq cpa cutoff (src0 (num_points / 8 * 8 + i))) +
    (num_points : ℚ) * cpa 4

/-- Unaligned AVX implementation: identical computation to the aligned AVX
variant (`loadu`/`storeu` differ only in their alignment contract, not in the
values moved). -/
def volk_32f_x3_sum_of_poly_32f_u_avx (src0 cpa : ℕ → ℚ) (cutoff : ℚ)
    (num_points : ℕ) : ℚ :=
  (∑ i ∈ Finset.range (num_points / 8), termAvx cpa cutoff (src0 (8 * i))) +
    (∑ i ∈ Finset.range (num_points / 8), termAvx cpa cutoff (src0 (8 * i + 1))) +
    (∑ i ∈ Finset.range (num_points / 8), termAvx cpa cutoff (src0 (8 * i + 2))) +
    (∑ i ∈ Finset.range (num_points / 8), termAvx cpa cutoff (src0 (8 * i + 3))) +
    (∑ i ∈ Finset.range (num_points / 8), termAvx cpa cutoff (src0 (8 * i + 4))) +
    (∑ i ∈ Finset.range (num_points / 8), termAvx cpa cutoff (src0 (8 * i + 5))) +
    (∑ i ∈ Finset.range (num_points / 8), termAvx cpa cutoff (src0 (8 * i + 6))) +
    (∑ i ∈ Finset.range (num_points / 8), termAvx cpa cutoff (src0 (8 * i + 7))) +
    (∑ i ∈ Finset.range (num_points - num_points / 8 * 8),
      termSq cpa cutoff (src0 (num_points / 8 * 8 + i))) +
    (num_points : ℚ) * cpa 4

/-- Unaligned AVX2-FMA implementation: identical computation to the aligned
FMA variant. -/
def volk_32f_x3_sum_of_poly_32f_u_avx_fma (src0 cpa : ℕ → ℚ) (cutoff : ℚ)
    (num_points : ℕ) : ℚ :=
  (∑ i ∈ Finset.range (num_points / 8), termAvx cpa cutoff (src0 (8 * i))) +
    (∑ i ∈ Finset.range (num_points / 8), termAvx cpa cutoff (src0 (8 * i + 1))) +
    (∑ i ∈ Finset.range (num_points / 8), termAvx cpa cutoff (src0 (8 * i + 2))) +
    (∑ i ∈ Finset.range (num_points / 8), termAvx cpa cutoff (src0 (8 * i + 3))) +
    (∑ i ∈ Finset.range (num_points / 8), termAvx cpa cutoff (src0 (8 * i + 4))) +
    (∑ i ∈ Finset.range (num_points / 8), termAvx cpa cutoff (src0 (8 * i + 5))) +
    (∑ i ∈ Finset.range (num_points / 8), termAvx cpa cutoff (src0 (8 * i + 6))) +
    (∑ i ∈ Finset.range (num_points / 8), termAvx cpa cutoff (src0 (8 * i + 7))) +
    (∑ i ∈ Finset.range (num_points - num_points / 8 * 8),
      termSq cpa cutoff (src0 (num_points / 8 * 8 + i))) +
    (num_points : ℚ) * cpa 4

/-- NEON implementation: per element, the 4-lane register `c_qvector` lane `j`
accumulates `x^(j+1) * cpa[j]` (`x2 = x1*x1`, `x3 = x2*x1`, `x4 = x3*x1` via
`vmlaq`); the four lanes are then added and `num_points * cpa[4]` is added. -/
def volk_32f_x3_sum_of_poly_32f_a_neon (src0 cpa : ℕ → ℚ) (cutoff : ℚ)
    (num_points : ℕ) : ℚ :=
  (∑ i ∈ Finset.range num_points, clampAt src0 cutoff i * cpa 0) +
    (∑ i ∈ Finset.range num_points,
      clampAt src0 cutoff i * clampAt src0 cutoff i * cpa 1) +
    (∑ i ∈ Finset.range num_points,
      clampAt src0 cutoff i * clampAt src0 cutoff i * clampAt src0 cutoff i * cpa 2) +
    (∑ i ∈ Finset.range num_points,
      clampAt src0 cutoff i * clampAt src0 cutoff i * clampAt src0 cutoff i *
        clampAt src0 cutoff i * cpa 3) +
    (num_points : ℚ) * cpa 4

/-- Vertical NEON implementation: `num_points/4` blocks of four elements; four
4-lane accumulators, the `k`-th accumulating `x^k * cpa[k-1]` with element
`4*i+l` in lane `l`; the accumulators are vector-added and lane-reduced; a
scalar tail (with `frth = sq*sq`) handles elements from `4*(num_points/4)`. -/
def volk_32f_x3_sum_of_poly_32f_neonvert (src0 cpa : ℕ → ℚ) (cutoff : ℚ)
    (num_points : ℕ) : ℚ :=
  (∑ i ∈ Finset.range (num_points / 4), clampAt src0 cutoff (4 * i) * cpa 0) +
    (∑ i ∈ Finset.range (num_points / 4), clampAt src0 cutoff (4 * i + 1) * cpa 0) +
    (∑ i ∈ Finset.range (num_points / 4), clampAt src0 cutoff (4 * i + 2) * cpa 0) +
    (∑ i ∈ Finset.range (num_points / 4), clampAt src0 cutoff (4 * i + 3) * cpa 0) +
    (∑ i ∈ Finset.range (num_points / 4),
      clampAt src0 cutoff (4 * i) * clampAt src0 cutoff (4 * i) * cpa 1) +
    (∑ i ∈ Finset.range (num_points / 4),
      clampAt src0 cutoff (4 * i + 1) * clampAt src0 cutoff (4 * i + 1) * cpa 1) +
    (∑ i ∈ Finset.range (num_points / 4),
      clampAt src0 cutoff (4 * i + 2) * clampAt src0 cutoff (4 * i + 2) * cpa 1) +
    (∑ i ∈ Finset.range (num_points / 4),
      clampAt src0 cutoff (4 * i + 3) * clampAt src0 cutoff (4 * i + 3) * cpa 1) +
    (∑ i ∈ Finset.range (num_points / 4),
      clampAt src0 cutoff (4 * i) * clampAt src0 cutoff (4 * i) *
        clampAt src0 cutoff (4 * i) * cpa 2) +
    (∑ i ∈ Finset.range (num_points / 4),
      clampAt src0 cutoff (4 * i + 1) * clampAt src0 cutoff (4 * i + 1) *
        clampAt src0 cutoff (4 * i + 1) * cpa 2) +
    (∑ i ∈ Finset.range (num_points / 4),
      clampAt src0 cutoff (4 * i + 2) * clampAt src0 cutoff (4 * i + 2) *
        clampAt src0 cutoff (4 * i + 2) * cpa 2) +
    (∑ i ∈ Finset.range (num_points / 4),
      clampAt src0 cutoff (4 * i + 3) * clampAt src0 cutoff (4 * i + 3) *
        clampAt src0 cutoff (4 * i + 3) * cpa 2) +
    (∑ i ∈ Finset.range (num_points / 4),
      clampAt src0 cutoff (4 * i) * clampAt src0 cutoff (4 * i) *
        clampAt src0 cutoff (4 * i) * clampAt src0 cutoff (4 * i) * cpa 3) +
    (∑ i ∈ Finset.range (num_points / 4),
      clampAt src0 cutoff (4 * i + 1) * clampAt src0 cutoff (4 * i + 1) *
        clampAt src0 cutoff (4 * i + 1) * clampAt src0 cutoff (4 * i + 1) * cpa 3) +
    (∑ i ∈ Finset.range (num_points / 4),
      clampAt src0 cutoff (4 * i + 2) * clampAt src0 cutoff (4 * i + 2) *
        clampAt src0 cutoff (4 * i + 2) * clampAt src0 cutoff (4 * i + 2) * cpa 3) +
    (∑ i ∈ Finset.range (num_points / 4),
      clampAt src0 cutoff (4 * i + 3) * clampAt src0 cutoff (4 * i + 3) *
        clampAt src0 cutoff (4 * i + 3) * clampAt src0 cutoff (4 * i + 3) * cpa 3) +
    (∑ i ∈ Finset.range (num_points - 4 * (num_points / 4)),
      termSq cpa cutoff (src0 (4 * (num_points / 4) + i))) +
    (num_points : ℚ) * cpa 4

/-- All implementation variants of `volk_32f_x3_sum_of_poly_32f`, as values of
one common signature type (the dispatcher's interchangeability contract). -/
def sum_of_poly_fns : List ((ℕ → ℚ) → (ℕ → ℚ) → ℚ → ℕ → ℚ) :=
  [volk_32f_x3_sum_of_poly_32f_generic,
   volk_32f_x3_sum_of_poly_32f_a_sse3,
   volk_32f_x3_sum_of_poly_32f_a_avx2_fma,
   volk_32f_x3_sum_of_poly_32f_a_avx,
   volk_32f_x3_sum_of_poly_32f_a_neon,
   volk_32f_x3_sum_of_poly_32f_neonvert,
   volk_32f_x3_sum_of_poly_32f_u_avx_fma,
   volk_32f_x3_sum_of_poly_32f_u_avx]

/-- Float-level view of a complex buffer: the C kernels cast
`const lv_32fc_t* complexVector` to `const float*`, so float index `2*j` is the
real part and `2*j+1` the imaginary part of complex element `j`. -/
def floatView {α : Type} (cv : ℕ → α × α) : ℕ → α :=
  fun m => if m % 2 = 0 then (cv (m / 2)).1 else (cv (m / 2)).2

/-- Load of eight consecutive floats (`_mm256_load_ps` / `_mm256_loadu_ps`),
lane order low to high. -/
def v8load {α : Type} (f : ℕ → α) (p : ℕ) : List α :=
  [f p, f (p + 1), f (p + 2), f (p + 3), f (p + 4), f (p + 5), f (p + 6), f (p + 7)]

/-- Semantics of `_mm256_permute2f128_ps(a, b, 0x20)`: low 128-bit lane of `a`
then low 128-bit lane of `b`. -/
def v8permute2f128_20 {α : Type} : List α → List α → List α
  | [a0, a1, a2, a3, _, _, _, _], [b0, b1, b2, b3, _, _, _, _] =>
      [a0, a1, a2, a3, b0, b1, b2, b3]
  | _, _ => []

/-- Semantics of `_mm256_permute2f128_ps(a, b, 0x31)`: high 128-bit lane of `a`
then high 128-bit lane of `b`. -/
def v8permute2f128_31 {α : Type} : List α → List α → List α
  | [_, _, _, _, a4, a5, a6, a7], [_, _, _, _, b4, b5, b6, b7] =>
      [a4, a5, a6, a7, b4, b5, b6, b7]
  | _, _ => []

/-- Semantics of `_mm256_shuffle_ps(a, b, 0x88)`: per 128-bit lane, elements
0 and 2 of `a` then 0 and 2 of `b`. -/
def v8shuffle_88 {α : Type} : List α → List α → List α
  | [a0, _, a2, _, a4, _, a6, _], [b0, _, b2, _, b4, _, b6, _] =>
      [a0, a2, b0, b2, a4, a6, b4, b6]
  | _, _ => []

/-- Semantics of `_mm256_shuffle_ps(a, b, 0xdd)`: per 128-bit lane, elements
1 and 3 of `a` then 1 and 3 of `b`. -/
def v8shuffle_dd {α : Type} : List α → List α → List α
  | [_, a1, _, a3, _, a5, _, a7], [_, b1, _, b3, _, b5, _, b7] =>
      [a1, a3, b1, b3, a5, a7, b5, b7]
  | _, _ => []

/-- One AVX deinterleave block, I side: the eight floats stored to `iBuffer`
from the sixteen floats at float offset `p` (two loads, two `permute2f128`, one
`shuffle 0x88`). -/
def avxBlockI {α : Type} (f : ℕ → α) (p : ℕ) : List α :=
  v8shuffle_88 (v8permute2f128_20 (v8load f p) (v8load f (p + 8)))
    (v8permute2f128_31 (v8load f p) (v8load f (p + 8)))

/-- One AVX deinterleave block, Q side (`shuffle 0xdd`). -/
def avxBlockQ {α : Type} (f : ℕ → α) (p : ℕ) : List α :=
  v8shuffle_dd (v8permute2f128_20 (v8load f p) (v8load f (p + 8)))
    (v8permute2f128_31 (v8load f p) (v8load f (p + 8)))

/-- Load of four consecutive floats (`_mm_load_ps`). -/
def v4load {α : Type} (f : ℕ → α) (p : ℕ) : List α :=
  [f p, f (p + 1), f (p + 2), f (p + 3)]

/-- Semantics of `_mm_shuffle_ps(a, b, _MM_SHUFFLE(2,0,2,0))`: elements 0 and 2
of `a` then 0 and 2 of `b`. -/
def v4shuffle_2020 {α : Type} : List α → List α → List α
  | [a0, _, a2, _], [b0, _, b2, _] => [a0, a2, b0, b2]
  | _, _ => []

/-- Semantics of `_mm_shuffle_ps(a, b, _MM_SHUFFLE(3,1,3,1))`: elements 1 and 3
of `a` then 1 and 3 of `b`. -/
def v4shuffle_3131 {α : Type} : List α → List α → List α
  | [_, a1, _, a3], [_, b1, _, b3] => [a1, a3, b1, b3]
  | _, _ => []

/-- One SSE deinterleave block, I side (two loads at float offsets `p`, `p+4`,
one `shuffle (2,0,2,0)`). -/
def sseBlockI {α : Type} (f : ℕ → α) (p : ℕ) : List α :=
  v4shuffle_2020 (v4load f p) (v4load f (p + 4))

/-- One SSE deinterleave block, Q side (`shuffle (3,1,3,1)`). -/
def sseBlockQ {α : Type} (f : ℕ → α) (p : ℕ) : List α :=
  v4shuffle_3131 (v4load f p) (v4load f (p + 4))

/-- Semantics of `vld2q_f32` at float offset `p`, `.val[0]`: the even-indexed
floats of the eight loaded. -/
def vld2q_val0 {α : Type} (f : ℕ → α) (p : ℕ) : List α :=
  [f p, f (p + 2), f (p + 4), f (p + 6)]

/-- Semantics of `vld2q_f32` at float offset `p`, `.val[1]`: the odd-indexed
floats of the eight loaded. -/
def vld2q_val1 {α : Type} (f : ℕ → α) (p : ℕ) : List α :=
  [f (p + 1), f (p + 3), f (p + 5), f (p + 7)]

/-- Generic implementation of `volk_32fc_deinterleave_32f_x2`: per element the
loop copies `*complexVectorPtr++` to `iBuffer` and the next float to `qBuffer`.
The result pair is `(iBuffer, qBuffer)` as written for `num_points` elements. -/
def volk_32fc_deinterleave_32f_x2_generic {α : Type} (cv : ℕ → α × α)
    (num_points : ℕ) : List α × List α :=
  ((List.range num_points).map (fun number => floatView cv (2 * number)),
   (List.range num_points).map (fun number => floatView cv (2 * number + 1)))

/-- AVX implementation: `num_points/8` blocks of eight complex elements
(sixteen floats at float offset `16*number`), then an element-wise tail from
complex index `eighthPoints*8`. -/
def volk_32fc_deinterleave_32f_x2_a_avx {α : Type} (cv : ℕ → α × α)
    (num_points : ℕ) : List α × List α :=
  ((List.range (num_points / 8)).flatMap
      (fun number => avxBlockI (floatView cv) (16 * number)) ++
    (List.range (num_points - num_points / 8 * 8)).map
      (fun number => floatView cv (2 * (num_points / 8 * 8 + number))),
   (List.range (num_points / 8)).flatMap
      (fun number => avxBlockQ (floatView cv) (16 * number)) ++
    (List.range (num_points - num_points / 8 * 8)).map
      (fun number => floatView cv (2 * (num_points / 8 * 8 + number) + 1)))

/-- Unaligned AVX implementation: same block structure as the aligned AVX one
(`loadu`/`storeu` move the same values). -/
def volk_32fc_deinterleave_32f_x2_u_avx {α : Type} (cv : ℕ → α × α)
    (num_points : ℕ) : List α × List α :=
  ((List.range (num_points / 8)).flatMap
      (fun number => avxBlockI (floatView cv) (16 * number)) ++
    (List.range (num_points - num_points / 8 * 8)).map
      (fun number => floatView cv (2 * (num_points / 8 * 8 + number))),
   (List.range (num_points / 8)).flatMap
      (fun number => avxBlockQ (floatView cv) (16 * number)) ++
    (List.range (num_points - num_points / 8 * 8)).map
      (fun number => floatView cv (2 * (num_points / 8 * 8 + number) + 1)))

/-- SSE implementation: `num_points/4` blocks of four complex elements (eight
floats at float offset `8*number`), then an element-wise tail from complex
index `quarterPoints*4`. -/
def volk_32fc_deinterleave_32f_x2_a_sse {α : Type} (cv : ℕ → α × α)
    (num_points : ℕ) : List α × List α :=
  ((List.range (num_points / 4)).flatMap
      (fun number => sseBlockI (floatView cv) (8 * number)) ++
    (List.range (num_points - num_points / 4 * 4)).map
      (fun number => floatView cv (2 * (num_points / 4 * 4 + number))),
   (List.range (num_points / 4)).flatMap
      (fun number => sseBlockQ (floatView cv) (8 * number)) ++
    (List.range (num_points - num_points / 4 * 4)).map
      (fun number => floatView cv (2 * (num_points / 4 * 4 + number) + 1)))

/-- NEON implementation: `num_points/4` blocks of four complex elements via
`vld2q_f32` (which deinterleaves on load), then an element-wise tail from
complex index `quarter_points*4`. -/
def volk_32fc_deinterleave_32f_x2_neon {α : Type} (cv : ℕ → α × α)
    (num_points : ℕ) : List α × List α :=
  ((List.range (num_points / 4)).flatMap
      (fun number => vld2q_val0 (floatView cv) (8 * number)) ++
    (List.range (num_points - num_points / 4 * 4)).map
      (fun number => floatView cv (2 * (num_points / 4 * 4 + number))),
   (List.range (num_points / 4)).flatMap
      (fun number => vld2q_val1 (floatView cv) (8 * number)) ++
    (List.range (num_points - num_points / 4 * 4)).map
      (fun number => floatView cv (2 * (num_points / 4 * 4 + number) + 1)))

/-- Specification-side definition (for the refinement claim): `iBuffer[i]` is
the real part and `qBuffer[i]` the imaginary part of `complexVector[i]`, for
all `i < num_points`.  Stated from the spec's words, to be compared with the
source-derived implementations. -/
def deinterleaveSpec {α : Type} (cv : ℕ → α × α) (num_points : ℕ) :
    List α × List α :=
  ((List.range num_points).map (fun i => (cv i).1),
   (List.range num_points).map (fun i => (cv i).2))

/-- All implementation variants of `volk_32fc_deinterleave_32f_x2` at element
type `α`, as values of one common signature type. -/
def deinterleave_fns (α : Type) : List ((ℕ → α × α) → ℕ → List α × List α) :=
  [volk_32fc_deinterleave_32f_x2_generic,
   volk_32fc_deinterleave_32f_x2_a_avx,
   volk_32fc_deinterleave_32f_x2_a_sse,
   volk_32fc_deinterleave_32f_x2_neon,
   volk_32fc_deinterleave_32f_x2_u_avx]

/-- Implementation metadata, as emitted per implementation by the machine
template: a variant name, the list of architecture dependencies taken from the
guarding `#ifdef LV_HAVE_...` conditionals (`i.deps`), and the alignment flag
(`i.is_aligned`, true exactly for the `a_`-prefixed variants). -/
structure Impl where
  name : String
  deps : List ℕ
  is_aligned : Bool
deriving DecidableEq

/-- Required-extension mask of an implementation: the template emits
`' | '.join('(1 << LV_%s)' % d for d in i.deps)`, i.e. the bitwise OR of
`1 <<< d` over the dependency bit positions. -/
def reqMask (i : Impl) : ℕ :=
  i.deps.foldl (fun m d => m ||| (1 <<< d)) 0

/-- Compiled-extension mask of a machine: the template emits
`' | '.join('(1 << LV_%s)' % a for a in this_machine.archs)`. -/
def archMask (archs : List ℕ) : ℕ :=
  archs.foldl (fun m a => m ||| (1 <<< a)) 0

/-- Decidable mask-subset test: `m` is a subset of `M` as bitsets iff
`m &&& M = m`. -/
def maskSubB (m M : ℕ) : Bool := m &&& M == m

/-- Kernel metadata: a name and the priority-ordered list of implementation
variants (best first, fallback last). -/
structure Kernel where
  name : String
  impls : List Impl
deriving DecidableEq

/-- Modelled from the spec: the body of `kern.get_impls(arch_names)` used by
the machine template is not part of the given sources; per the spec the
generator keeps exactly the sublist of implementations whose required mask is a
subset of the machine's compiled mask, preserving relative order. -/
def get_impls (impls : List Impl) (M : ℕ) : List Impl :=
  impls.filter (fun i => maskSubB (reqMask i) M)

/-- Machine descriptor as laid out by `volk_machine_xxx.tmpl.c`: the compiled
extension mask (`make_arch_have_list`) and, per kernel, the kernel name with
its filtered implementation table. -/
structure volk_machine where
  caps : ℕ
  tables : List (String × List Impl)

/-- Build of one machine descriptor from the template: caps is the OR of the
machine's arch bits; each kernel contributes `get_impls` of its
implementation list. -/
def make_volk_machine (archs : List ℕ) (kernels : List Kernel) : volk_machine :=
  { caps := archMask archs
    tables := kernels.map (fun k => (k.name, get_impls k.impls (archMask archs))) }

/-- Modelled from the spec: the dispatcher's resolution scan (not part of the
given sources) walks the priority-ordered implementation list and selects the
first implementation whose required mask is a subset of the capability mask. -/
def resolveList (cap : ℕ) : List Impl → Option Impl
  | [] => none
  | i :: rest => if maskSubB (reqMask i) cap then some i else resolveList cap rest

/-- Position (priority rank, 0 = best) of the implementation `resolveList`
selects. -/
def resolveIdxList (cap : ℕ) : List Impl → Option ℕ
  | [] => none
  | i :: rest =>
      if maskSubB (reqMask i) cap then some 0
      else (resolveIdxList cap rest).map (· + 1)

/-- Resolution of a kernel under a capability mask. -/
def resolve (k : Kernel) (cap : ℕ) : Option Impl := resolveList cap k.impls

/-- Priority rank of the resolved implementation. -/
def resolveIdx (k : Kernel) (cap : ℕ) : Option ℕ := resolveIdxList cap k.impls

/-- Modelled from the spec: the unaligned call path restricts the scan to
implementations with no alignment requirement. -/
def resolve_u (k : Kernel) (cap : ℕ) : Option Impl :=
  resolveList cap (k.impls.filter (fun i => !i.is_aligned))

/-- Architecture bit positions (modelled: the actual `LV_*` values come from
the generated `volk_config_fixed.h`, not part of the given sources; only
distinctness matters here). -/
def LV_SSE : ℕ := 0

/-- Architecture bit position of SSE3. -/
def LV_SSE3 : ℕ := 1

/-- Architecture bit position of AVX. -/
def LV_AVX : ℕ := 2

/-- Architecture bit position of FMA. -/
def LV_FMA : ℕ := 3

/-- Architecture bit position of NEON. -/
def LV_NEON : ℕ := 4

/-- Metadata of `volk_32f_x3_sum_of_poly_32f_a_sse3` (`#ifdef LV_HAVE_SSE3`,
aligned loads). -/
def impl_sum_a_sse3 : Impl := ⟨"a_sse3", [LV_SSE3], true⟩

/-- Metadata of `volk_32f_x3_sum_of_poly_32f_a_avx2_fma`
(`#if LV_HAVE_AVX && LV_HAVE_FMA`, aligned loads). -/
def impl_sum_a_avx2_fma : Impl := ⟨"a_avx2_fma", [LV_AVX, LV_FMA], true⟩

/-- Metadata of `volk_32f_x3_sum_of_poly_32f_a_avx` (`#ifdef LV_HAVE_AVX`,
aligned loads). -/
def impl_sum_a_avx : Impl := ⟨"a_avx", [LV_AVX], true⟩

/-- Metadata of `volk_32f_x3_sum_of_poly_32f_generic`
(`#ifdef LV_HAVE_GENERIC`): the zero-dependency, alignment-free fallback. -/
def impl_sum_generic : Impl := ⟨"generic", [], false⟩

/-- Metadata of `volk_32f_x3_sum_of_poly_32f_a_neon` (`#ifdef LV_HAVE_NEON`,
aligned). -/
def impl_sum_a_neon : Impl := ⟨"a_neon", [LV_NEON], true⟩

/-- Metadata of `volk_32f_x3_sum_of_poly_32f_neonvert` (`#ifdef LV_HAVE_NEON`,
no alignment requirement). -/
def impl_sum_neonvert : Impl := ⟨"neonvert", [LV_NEON], false⟩

/-- Metadata of `volk_32f_x3_sum_of_poly_32f_u_avx_fma`
(`#if LV_HAVE_AVX && LV_HAVE_FMA`, unaligned loads). -/
def impl_sum_u_avx_fma : Impl := ⟨"u_avx_fma", [LV_AVX, LV_FMA], false⟩

/-- Metadata of `volk_32f_x3_sum_of_poly_32f_u_avx` (`#ifdef LV_HAVE_AVX`,
unaligned loads). -/
def impl_sum_u_avx : Impl := ⟨"u_avx", [LV_AVX], false⟩

/-- Kernel metadata of `volk_32f_x3_sum_of_poly_32f`: the eight variants found
in the source, in priority order.  The order is modelled from the spec
(best-first by extension richness, fallback last); the variant set, dependency
sets and alignment flags are from the source's `#ifdef` guards and naming. -/
def volk_32f_x3_sum_of_poly_32f_kernel : Kernel :=
  ⟨"volk_32f_x3_sum_of_poly_32f",
   [impl_sum_a_avx2_fma, impl_sum_u_avx_fma, impl_sum_a_avx, impl_sum_u_avx,
    impl_sum_a_sse3, impl_sum_a_neon, impl_sum_neonvert, impl_sum_generic]⟩

/-- Metadata of `volk_32fc_deinterleave_32f_x2_a_avx` (`#ifdef LV_HAVE_AVX`,
aligned). -/
def impl_deint_a_avx : Impl := ⟨"a_avx", [LV_AVX], true⟩

/-- Metadata of `volk_32fc_deinterleave_32f_x2_a_sse` (`#ifdef LV_HAVE_SSE`,
aligned). -/
def impl_deint_a_sse : Impl := ⟨"a_sse", [LV_SSE], true⟩

/-- Metadata of `volk_32fc_deinterleave_32f_x2_neon` (`#ifdef LV_HAVE_NEON`,
no alignment requirement). -/
def impl_deint_neon : Impl := ⟨"neon", [LV_NEON], false⟩

/-- Metadata of `volk_32fc_deinterleave_32f_x2_generic`: the zero-dependency,
alignment-free fallback. -/
def impl_deint_generic : Impl := ⟨"generic", [], false⟩

/-- Metadata of `volk_32fc_deinterleave_32f_x2_u_avx` (`#ifdef LV_HAVE_AVX`,
unaligned loads). -/
def impl_deint_u_avx : Impl := ⟨"u_avx", [LV_AVX], false⟩

/-- Kernel metadata of `volk_32fc_deinterleave_32f_x2`: the five variants found
in the source, in priority order (modelled from the spec, fallback last). -/
def volk_32fc_deinterleave_32f_x2_kernel : Kernel :=
  ⟨"volk_32fc_deinterleave_32f_x2",
   [impl_deint_a_avx, impl_deint_u_avx, impl_deint_a_sse, impl_deint_neon,
    impl_deint_generic]⟩

/-- The kernels whose implementations appear in the given sources. -/
def volk_kernels : List Kernel :=
  [volk_32f_x3_sum_of_poly_32f_kernel, volk_32fc_deinterleave_32f_x2_kernel]

theorem sum_range_split (g : ℕ → ℚ) (n b : ℕ) (h : b ≤ n) :
    ∑ j ∈ Finset.range n, g j
      = (∑ j ∈ Finset.range b, g j) + ∑ i ∈ Finset.range (n - b), g (b + i) := by
  rw [← Finset.sum_range_add, Nat.add_sub_cancel' h]

theorem sum_range_block8 (f : ℕ → ℚ) (e : ℕ) :
    ∑ j ∈ Finset.range (8 * e), f j
      = ∑ i ∈ Finset.range e,
          (f (8 * i) + f (8 * i + 1) + f (8 * i + 2) + f (8 * i + 3) + f (8 * i + 4)
            + f (8 * i + 5) + f (8 * i + 6) + f (8 * i + 7)) := by
  induction e with
  | zero => simp
  | succ e ih =>
      rw [Nat.mul_succ, Finset.sum_range_add, ih, Finset.sum_range_succ]
      simp [Finset.sum_range_succ]

theorem sum_range_block4 (f : ℕ → ℚ) (e : ℕ) :
    ∑ j ∈ Finset.range (4 * e), f j
      = ∑ i ∈ Finset.range e,
          (f (4 * i) + f (4 * i + 1) + f (4 * i + 2) + f (4 * i + 3)) := by
  induction e with
  | zero => simp
  | succ e ih =>
      rw [Nat.mul_succ, Finset.sum_range_add, ih, Finset.sum_range_succ]
      simp [Finset.sum_range_succ]

theorem termGeneric_eq (cpa : ℕ → ℚ) (cutoff x : ℚ) :
    termGeneric cpa cutoff x = polyT cpa cutoff x := by
  unfold termGeneric polyT; ring

theorem termSq_eq (cpa : ℕ → ℚ) (cutoff x : ℚ) :
    termSq cpa cutoff x = polyT cpa cutoff x := by
  unfold termSq polyT; ring

theorem termAvx_eq (cpa : ℕ → ℚ) (cutoff x : ℚ) :
    termAvx cpa cutoff x = polyT cpa cutoff x := by
  unfold termAvx polyT; ring

theorem generic_eq_val (src0 cpa : ℕ → ℚ) (cutoff : ℚ) (n : ℕ) :
    volk_32f_x3_sum_of_poly_32f_generic src0 cpa cutoff n
      = sumOfPolyVal src0 cpa cutoff n := by
  unfold volk_32f_x3_sum_of_poly_32f_generic sumOfPolyVal
  rw [sum_range_split (fun j => polyT cpa cutoff (src0 j)) n (n / 8 * 8) (by omega),
    Nat.mul_comm (n / 8) 8, sum_range_block8]
  simp only [termGeneric_eq, Finset.sum_add_distrib]

theorem a_sse3_eq_val (src0 cpa : ℕ → ℚ) (cutoff : ℚ) (n : ℕ) :
    volk_32f_x3_sum_of_poly_32f_a_sse3 src0 cpa cutoff n
      = sumOfPolyVal src0 cpa cutoff n := by
  unfold volk_32f_x3_sum_of_poly_32f_a_sse3 sumOfPolyVal
  rw [sum_range_split (fun j => polyT cpa cutoff (src0 j)) n (8 * (n / 8)) (by omega),
    sum_range_block8]
  simp only [termSq_eq, Finset.sum_add_distrib]

theorem a_avx_eq_val (src0 cpa : ℕ → ℚ) (cutoff : ℚ) (n : ℕ) :
    volk_32f_x3_sum_of_poly_32f_a_avx src0 cpa cutoff n
      = sumOfPolyVal src0 cpa cutoff n := by
  unfold volk_32f_x3_sum_of_poly_32f_a_avx sumOfPolyVal
  rw [sum_range_split (fun j => polyT cpa cutoff (src0 j)) n (n / 8 * 8) (by omega),
    Nat.mul_comm (n / 8) 8, sum_range_block8]
  simp only [termAvx_eq, termSq_eq, Finset.sum_add_distrib]

theorem a_avx2_fma_eq_val (src0 cpa : ℕ → ℚ) (cutoff : ℚ) (n : ℕ) :
    volk_32f_x3_sum_of_poly_32f_a_avx2_fma src0 cpa cutoff n
      = sumOfPolyVal src0 cpa cutoff n := by
  unfold volk_32f_x3_sum_of_poly_32f_a_avx2_fma sumOfPolyVal
  rw [sum_range_split (fun j => polyT cpa cutoff (src0 j)) n (n / 8 * 8) (by omega),
    Nat.mul_comm (n / 8) 8, sum_range_block8]
  simp only [termAvx_eq, termSq_eq, Finset.sum_add_distrib]

theorem u_avx_eq_val (src0 cpa : ℕ → ℚ) (cutoff : ℚ) (n : ℕ) :
    volk_32f_x3_sum_of_poly_32f_u_avx src0 cpa cutoff n
      = sumOfPolyVal src0 cpa cutoff n := by
  unfold volk_32f_x3_sum_of_poly_32f_u_avx sumOfPolyVal
  rw [sum_range_split (fun j => polyT cpa cutoff (src0 j)) n (n / 8 * 8) (by omega),
    Nat.mul_comm (n / 8) 8, sum_range_block8]
  simp only [termAvx_eq, termSq_eq, Finset.sum_add_distrib]

theorem u_avx_fma_eq_val (src0 cpa : ℕ → ℚ) (cutoff : ℚ) (n : ℕ) :
    volk_32f_x3_sum_of_poly_32f_u_avx_fma src0 cpa cutoff n
      = sumOfPolyVal src0 cpa cutoff n := by
  unfold volk_32f_x3_sum_of_poly_32f_u_avx_fma sumOfPolyVal
  rw [sum_range_split (fun j => polyT cpa cutoff (src0 j)) n (n / 8 * 8) (by omega),
    Nat.mul_comm (n / 8) 8, sum_range_block8]
  simp only [termAvx_eq, termSq_eq, Finset.sum_add_distrib]

theorem clampAt_poly (src0 cpa : ℕ → ℚ) (cutoff : ℚ) (j : ℕ) :
    polyT cpa cutoff (src0 j)
      = clampAt src0 cutoff j * cpa 0
        + clampAt src0 cutoff j * clampAt src0 cutoff j * cpa 1
        + clampAt src0 cutoff j * clampAt src0 cutoff j * clampAt src0 cutoff j * cpa 2
        + clampAt src0 cutoff j * clampAt src0 cutoff j * clampAt src0 cutoff j *
            clampAt src0 cutoff j * cpa 3 := by
  unfold polyT clampAt; ring

theorem a_neon_eq_val (src0 cpa : ℕ → ℚ) (cutoff : ℚ) (n : ℕ) :
    volk_32f_x3_sum_of_poly_32f_a_neon src0 cpa cutoff n
      = sumOfPolyVal src0 cpa cutoff n := by
  unfold volk_32f_x3_sum_of_poly_32f_a_neon sumOfPolyVal
  simp only [clampAt_poly, Finset.sum_add_distrib]

theorem neonvert_eq_val (src0 cpa : ℕ → ℚ) (cutoff : ℚ) (n : ℕ) :
    volk_32f_x3_sum_of_poly_32f_neonvert src0 cpa cutoff n
      = sumOfPolyVal src0 cpa cutoff n := by
  unfold volk_32f_x3_sum_of_poly_32f_neonvert sumOfPolyVal
  rw [sum_range_split (fun j => polyT cpa cutoff (src0 j)) n (4 * (n / 4)) (by omega),
    sum_range_block4]
  simp only [clampAt_poly, termSq_eq, Finset.sum_add_distrib]
  ring

theorem sum_of_poly_fns_eq_val :
    ∀ f ∈ sum_of_poly_fns, ∀ (src0 cpa : ℕ → ℚ) (cutoff : ℚ) (n : ℕ),
      f src0 cpa cutoff n = sumOfPolyVal src0 cpa cutoff n := by
  intro f hf src0 cpa cutoff n
  simp only [sum_of_poly_fns, List.mem_cons, List.not_mem_nil, or_false] at hf
  rcases hf with rfl | rfl | rfl | rfl | rfl | rfl | rfl | rfl
  · exact generic_eq_val src0 cpa cutoff n
  · exact a_sse3_eq_val src0 cpa cutoff n
  · exact a_avx2_fma_eq_val src0 cpa cutoff n
  · exact a_avx_eq_val src0 cpa cutoff n
  · exact a_neon_eq_val src0 cpa cutoff n
  · exact neonvert_eq_val src0 cpa cutoff n
  · exact u_avx_fma_eq_val src0 cpa cutoff n
  · exact u_avx_eq_val src0 cpa cutoff n

theorem flatMap_range_block8 {α : Type} (g : ℕ → α) (e : ℕ) (blk : ℕ → List α)
    (hblk : ∀ k, blk k = [g (8 * k), g (8 * k + 1), g (8 * k + 2), g (8 * k + 3),
      g (8 * k + 4), g (8 * k + 5), g (8 * k + 6), g (8 * k + 7)]) :
    (List.range e).flatMap blk = (List.range (8 * e)).map g := by
  induction e with
  | zero => simp
  | succ e ih =>
      rw [List.range_succ, List.flatMap_append, ih, Nat.mul_succ, List.range_add,
        List.map_append]
      have hr : List.range 8 = [0, 1, 2, 3, 4, 5, 6, 7] := rfl
      rw [hr]
      simp [hblk]

theorem flatMap_range_block4 {α : Type} (g : ℕ → α) (e : ℕ) (blk : ℕ → List α)
    (hblk : ∀ k, blk k = [g (4 * k), g (4 * k + 1), g (4 * k + 2), g (4 * k + 3)]) :
    (List.range e).flatMap blk = (List.range (4 * e)).map g := by
  induction e with
  | zero => simp
  | succ e ih =>
      rw [List.range_succ, List.flatMap_append, ih, Nat.mul_succ, List.range_add,
        List.map_append]
      have hr : List.range 4 = [0, 1, 2, 3] := rfl
      rw [hr]
      simp [hblk]

theorem map_range_split {α : Type} (g : ℕ → α) (n b : ℕ) (h : b ≤ n) :
    (List.range n).map g
      = (List.range b).map g ++ (List.range (n - b)).map (fun t => g (b + t)) := by
  conv_lhs => rw [show n = b + (n - b) by omega]
  rw [List.range_add, List.map_append, List.map_map]
  rfl

theorem avxBlockI_at {α : Type} (f : ℕ → α) (k : ℕ) :
    avxBlockI f (16 * k)
      = [f (2 * (8 * k)), f (2 * (8 * k + 1)), f (2 * (8 * k + 2)), f (2 * (8 * k + 3)),
         f (2 * (8 * k + 4)), f (2 * (8 * k + 5)), f (2 * (8 * k + 6)),
         f (2 * (8 * k + 7))] := by
  show [f (16 * k), f (16 * k + 2), f (16 * k + 4), f (16 * k + 6), f (16 * k + 8),
        f (16 * k + 10), f (16 * k + 12), f (16 * k + 14)] = _
  have h7 : 16 * k + 14 = 2 * (8 * k + 7) := by ring
  have h6 : 16 * k + 12 = 2 * (8 * k + 6) := by ring
  have h5 : 16 * k + 10 = 2 * (8 * k + 5) := by ring
  have h4 : 16 * k + 8 = 2 * (8 * k + 4) := by ring
  have h3 : 16 * k + 6 = 2 * (8 * k + 3) := by ring
  have h2 : 16 * k + 4 = 2 * (8 * k + 2) := by ring
  have h1 : 16 * k + 2 = 2 * (8 * k + 1) := by ring
  have h0 : 16 * k = 2 * (8 * k) := by ring
  rw [h7, h6, h5, h4, h3, h2, h1, h0]

theorem avxBlockQ_at {α : Type} (f : ℕ → α) (k : ℕ) :
    avxBlockQ f (16 * k)
      = [f (2 * (8 * k) + 1), f (2 * (8 * k + 1) + 1), f (2 * (8 * k + 2) + 1),
         f (2 * (8 * k + 3) + 1), f (2 * (8 * k + 4) + 1), f (2 * (8 * k + 5) + 1),
         f (2 * (8 * k + 6) + 1), f (2 * (8 * k + 7) + 1)] := by
  show [f (16 * k + 1), f (16 * k + 3), f (16 * k + 5), f (16 * k + 7), f (16 * k + 9),
        f (16 * k + 11), f (16 * k + 13), f (16 * k + 15)] = _
  have h7 : 16 * k + 15 = 2 * (8 * k + 7) + 1 := by ring
  have h6 : 16 * k + 13 = 2 * (8 * k + 6) + 1 := by ring
  have h5 : 16 * k + 11 = 2 * (8 * k + 5) + 1 := by ring
  have h4 : 16 * k + 9 = 2 * (8 * k + 4) + 1 := by ring
  have h3 : 16 * k + 7 = 2 * (8 * k + 3) + 1 := by ring
  have h2 : 16 * k + 5 = 2 * (8 * k + 2) + 1 := by ring
  have h1 : 16 * k + 3 = 2 * (8 * k + 1) + 1 := by ring
  have h0 : 16 * k + 1 = 2 * (8 * k) + 1 := by ring
  rw [h7, h6, h5, h4, h3, h2, h1, h0]

theorem sseBlockI_at {α : Type} (f : ℕ → α) (k : ℕ) :
    sseBlockI f (8 * k)
      = [f (2 * (4 * k)), f (2 * (4 * k + 1)), f (2 * (4 * k + 2)),
         f (2 * (4 * k + 3))] := by
  show [f (8 * k), f (8 * k + 2), f (8 * k + 4), f (8 * k + 6)] = _
  have h3 : 8 * k + 6 = 2 * (4 * k + 3) := by ring
  have h2 : 8 * k + 4 = 2 * (4 * k + 2) := by ring
  have h1 : 8 * k + 2 = 2 * (4 * k + 1) := by ring
  have h0 : 8 * k = 2 * (4 * k) := by ring
  rw [h3, h2, h1, h0]

theorem sseBlockQ_at {α : Type} (f : ℕ → α) (k : ℕ) :
    sseBlockQ f (8 * k)
      = [f (2 * (4 * k) + 1), f (2 * (4 * k + 1) + 1), f (2 * (4 * k + 2) + 1),
         f (2 * (4 * k + 3) + 1)] := by
  show [f (8 * k + 1), f (8 * k + 3), f (8 * k + 5), f (8 * k + 7)] = _
  have h3 : 8 * k + 7 = 2 * (4 * k + 3) + 1 := by ring
  have h2 : 8 * k + 5 = 2 * (4 * k + 2) + 1 := by ring
  have h1 : 8 * k + 3 = 2 * (4 * k + 1) + 1 := by ring
  have h0 : 8 * k + 1 = 2 * (4 * k) + 1 := by ring
  rw [h3, h2, h1, h0]

theorem vld2q_val0_at {α : Type} (f : ℕ → α) (k : ℕ) :
    vld2q_val0 f (8 * k)
      = [f (2 * (4 * k)), f (2 * (4 * k + 1)), f (2 * (4 * k + 2)),
         f (2 * (4 * k + 3))] := by
  show [f (8 * k), f (8 * k + 2), f (8 * k + 4), f (8 * k + 6)] = _
  have h3 : 8 * k + 6 = 2 * (4 * k + 3) := by ring
  have h2 : 8 * k + 4 = 2 * (4 * k + 2) := by ring
  have h1 : 8 * k + 2 = 2 * (4 * k + 1) := by ring
  have h0 : 8 * k = 2 * (4 * k) := by ring
  rw [h3, h2, h1, h0]

theorem vld2q_val1_at {α : Type} (f : ℕ → α) (k : ℕ) :
    vld2q_val1 f (8 * k)
      = [f (2 * (4 * k) + 1), f (2 * (4 * k + 1) + 1), f (2 * (4 * k + 2) + 1),
         f (2 * (4 * k + 3) + 1)] := by
  show [f (8 * k + 1), f (8 * k + 3), f (8 * k + 5), f (8 * k + 7)] = _
  have h3 : 8 * k + 7 = 2 * (4 * k + 3) + 1 := by ring
  have h2 : 8 * k + 5 = 2 * (4 * k + 2) + 1 := by ring
  have h1 : 8 * k + 3 = 2 * (4 * k + 1) + 1 := by ring
  have h0 : 8 * k + 1 = 2 * (4 * k) + 1 := by ring
  rw [h3, h2, h1, h0]

theorem a_avx_deint_eq {α : Type} (cv : ℕ → α × α) (n : ℕ) :
    volk_32fc_deinterleave_32f_x2_a_avx cv n
      = volk_32fc_deinterleave_32f_x2_generic cv n := by
  unfold volk_32fc_deinterleave_32f_x2_a_avx volk_32fc_deinterleave_32f_x2_generic
  congr 1
  · rw [flatMap_range_block8 (fun j => floatView cv (2 * j)) (n / 8) _
        (fun k => avxBlockI_at (floatView cv) k),
      map_range_split (fun number => floatView cv (2 * number)) n (n / 8 * 8) (by omega),
      Nat.mul_comm (n / 8) 8]
  · rw [flatMap_range_block8 (fun j => floatView cv (2 * j + 1)) (n / 8) _
        (fun k => avxBlockQ_at (floatView cv) k),
      map_range_split (fun number => floatView cv (2 * number + 1)) n (n / 8 * 8)
        (by omega),
      Nat.mul_comm (n / 8) 8]

theorem u_avx_deint_eq {α : Type} (cv : ℕ → α × α) (n : ℕ) :
    volk_32fc_deinterleave_32f_x2_u_avx cv n
      = volk_32fc_deinterleave_32f_x2_generic cv n := by
  unfold volk_32fc_deinterleave_32f_x2_u_avx volk_32fc_deinterleave_32f_x2_generic
  congr 1
  · rw [flatMap_range_block8 (fun j => floatView cv (2 * j)) (n / 8) _
        (fun k => avxBlockI_at (floatView cv) k),
      map_range_split (fun number => floatView cv (2 * number)) n (n / 8 * 8) (by omega),
      Nat.mul_comm (n / 8) 8]
  · rw [flatMap_range_block8 (fun j => floatView cv (2 * j + 1)) (n / 8) _
        (fun k => avxBlockQ_at (floatView cv) k),
      map_range_split (fun number => floatView cv (2 * number + 1)) n (n / 8 * 8)
        (by omega),
      Nat.mul_comm (n / 8) 8]

theorem a_sse_deint_eq {α : Type} (cv : ℕ → α × α) (n : ℕ) :
    volk_32fc_deinterleave_32f_x2_a_sse cv n
      = volk_32fc_deinterleave_32f_x2_generic cv n := by
  unfold volk_32fc_deinterleave_32f_x2_a_sse volk_32fc_deinterleave_32f_x2_generic
  congr 1
  · rw [flatMap_range_block4 (fun j => floatView cv (2 * j)) (n / 4) _
        (fun k => sseBlockI_at (floatView cv) k),
      map_range_split (fun number => floatView cv (2 * number)) n (n / 4 * 4) (by omega),
      Nat.mul_comm (n / 4) 4]
  · rw [flatMap_range_block4 (fun j => floatView cv (2 * j + 1)) (n / 4) _
        (fun k => sseBlockQ_at (floatView cv) k),
      map_range_split (fun number => floatView cv (2 * number + 1)) n (n / 4 * 4)
        (by omega),
      Nat.mul_comm (n / 4) 4]

theorem neon_deint_eq {α : Type} (cv : ℕ → α × α) (n : ℕ) :
    volk_32fc_deinterleave_32f_x2_neon cv n
      = volk_32fc_deinterleave_32f_x2_generic cv n := by
  unfold volk_32fc_deinterleave_32f_x2_neon volk_32fc_deinterleave_32f_x2_generic
  congr 1
  · rw [flatMap_range_block4 (fun j => floatView cv (2 * j)) (n / 4) _
        (fun k => vld2q_val0_at (floatView cv) k),
      map_range_split (fun number => floatView cv (2 * number)) n (n / 4 * 4) (by omega),
      Nat.mul_comm (n / 4) 4]
  · rw [flatMap_range_block4 (fun j => floatView cv (2 * j + 1)) (n / 4) _
        (fun k => vld2q_val1_at (floatView cv) k),
      map_range_split (fun number => floatView cv (2 * number + 1)) n (n / 4 * 4)
        (by omega),
      Nat.mul_comm (n / 4) 4]

theorem generic_deint_eq_spec {α : Type} (cv : ℕ → α × α) (n : ℕ) :
    volk_32fc_deinterleave_32f_x2_generic cv n = deinterleaveSpec cv n := by
  unfold volk_32fc_deinterleave_32f_x2_generic deinterleaveSpec
  congr 1
  · refine List.map_congr_left (fun i _ => ?_)
    have h1 : 2 * i % 2 = 0 := by omega
    have h2 : 2 * i / 2 = i := by omega
    simp [floatView, h1, h2]
  · refine List.map_congr_left (fun i _ => ?_)
    have h1 : ¬((2 * i + 1) % 2 = 0) := by omega
    have h2 : (2 * i + 1) / 2 = i := by omega
    simp [floatView, h1, h2]

theorem deinterleave_fns_eq_spec (α : Type) :
    ∀ f ∈ deinterleave_fns α, ∀ (cv : ℕ → α × α) (n : ℕ),
      f cv n = deinterleaveSpec cv n := by
  intro f hf cv n
  simp only [deinterleave_fns, List.mem_cons, List.not_mem_nil, or_false] at hf
  rcases hf with rfl | rfl | rfl | rfl | rfl
  · exact generic_deint_eq_spec cv n
  · exact (a_avx_deint_eq cv n).trans (generic_deint_eq_spec cv n)
  · exact (a_sse_deint_eq cv n).trans (generic_deint_eq_spec cv n)
  · exact (neon_deint_eq cv n).trans (generic_deint_eq_spec cv n)
  · exact (u_avx_deint_eq cv n).trans (generic_deint_eq_spec cv n)

theorem maskSubB_of_zero (M : ℕ) : maskSubB 0 M = true := by simp [maskSubB]

theorem maskSubB_zero_iff (m : ℕ) : maskSubB m 0 = true ↔ m = 0 := by
  constructor
  · intro h
    have h2 : m &&& 0 = m := by simpa [maskSubB] using h
    simpa using h2.symm
  · intro h
    subst h
    simp [maskSubB]

theorem maskSubB_trans {m M1 M2 : ℕ} (h1 : maskSubB m M1 = true)
    (h2 : maskSubB M1 M2 = true) : maskSubB m M2 = true := by
  simp only [maskSubB, beq_iff_eq] at h1 h2 ⊢
  calc m &&& M2 = m &&& M1 &&& M2 := by rw [h1]
    _ = m &&& (M1 &&& M2) := Nat.land_assoc m M1 M2
    _ = m &&& M1 := by rw [h2]
    _ = m := h1

theorem resolveList_mem (cap : ℕ) :
    ∀ (l : List Impl) (i : Impl), resolveList cap l = some i →
      i ∈ l ∧ maskSubB (reqMask i) cap = true := by
  intro l
  induction l with
  | nil => intro i h; simp [resolveList] at h
  | cons a rest ih =>
      intro i h
      by_cases hc : maskSubB (reqMask a) cap = true
      · simp only [resolveList, hc, if_true, Option.some.injEq] at h
        subst h
        exact ⟨List.mem_cons_self a rest, hc⟩
      · simp only [resolveList, hc, if_false] at h
        rcases ih i h with ⟨hm, hs⟩
        exact ⟨List.mem_cons_of_mem a hm, hs⟩

theorem resolveList_isSome (cap : ℕ) :
    ∀ (l : List Impl) (g : Impl), g ∈ l → reqMask g = 0 →
      ∃ i, resolveList cap l = some i := by
  intro l
  induction l with
  | nil => intro g hg _; cases hg
  | cons a rest ih =>
      intro g hg h0
      by_cases hc : maskSubB (reqMask a) cap = true
      · exact ⟨a, by simp [resolveList, hc]⟩
      · rcases List.mem_cons.mp hg with rfl | hm
        · exact absurd (by simp [maskSubB, h0]) hc
        · rcases ih g hm h0 with ⟨i, hi⟩
          exact ⟨i, by simp [resolveList, hc, hi]⟩

theorem resolveList_zero_getLast :
    ∀ (l : List Impl) (g : Impl),
      l.countP (fun i => reqMask i == 0) = 1 → l.getLast? = some g → reqMask g = 0 →
      resolveList 0 l = some g := by
  intro l
  induction l with
  | nil => intro g _ hl _; simp at hl
  | cons a rest ih =>
      intro g hc hl hg
      by_cases ha : reqMask a = 0
      · have hres : resolveList 0 (a :: rest) = some a := by
          simp [resolveList, maskSubB, ha]
        have hc0 : ∀ x ∈ rest, ¬reqMask x = 0 := by
          rw [List.countP_cons] at hc
          simp [ha] at hc
          exact hc
        cases rest with
        | nil =>
            simp only [List.getLast?_singleton, Option.some.injEq] at hl
            rw [hres, hl]
        | cons b rest2 =>
            rw [List.getLast?_cons_cons] at hl
            have hmem : g ∈ b :: rest2 := List.mem_of_mem_getLast? hl
            exact absurd hg (hc0 g hmem)
      · have hskip : ¬(maskSubB (reqMask a) 0 = true) := by
          rw [maskSubB_zero_iff]; exact ha
        have hres : resolveList 0 (a :: rest) = resolveList 0 rest := by
          simp [resolveList, hskip]
        cases rest with
        | nil =>
            simp only [List.getLast?_singleton, Option.some.injEq] at hl
            subst hl
            exact absurd hg ha
        | cons b rest2 =>
            rw [List.getLast?_cons_cons] at hl
            have hc1 : (b :: rest2).countP (fun i => reqMask i == 0) = 1 := by
              rw [List.countP_cons] at hc
              simpa [ha] using hc
            rw [hres]
            exact ih g hc1 hl hg

theorem resolveIdxList_mono {M1 M2 : ℕ} (hsub : maskSubB M1 M2 = true) :
    ∀ (l : List Impl) (i1 : ℕ), resolveIdxList M1 l = some i1 →
      ∃ i2, resolveIdxList M2 l = some i2 ∧ i2 ≤ i1 := by
  intro l
  induction l with
  | nil => intro i1 h; simp [resolveIdxList] at h
  | cons a rest ih =>
      intro i1 h
      by_cases h2 : maskSubB (reqMask a) M2 = true
      · exact ⟨0, by simp [resolveIdxList, h2], Nat.zero_le _⟩
      · have h1 : ¬(maskSubB (reqMask a) M1 = true) := fun hc => h2 (maskSubB_trans hc hsub)
        simp only [resolveIdxList, h1, if_false] at h
        rcases Option.map_eq_some'.mp h with ⟨j1, hj1, rfl⟩
        rcases ih j1 hj1 with ⟨j2, hj2, hle⟩
        exact ⟨j2 + 1, by simp [resolveIdxList, h2, hj2], by omega⟩

/-- C1: for the kernel `volk_32f_x3_sum_of_poly_32f`, every implementation
variant (including `neonvert` and `a_neon`), applied to input vectors of any
length — 0, 1 and non-multiples of every SIMD width included — produces the
same output as the generic fallback.  In the exact-arithmetic model the outputs
are equal outright, so in particular they agree within any fixed floating-point
tolerance. -/
theorem claim_C1_sum_of_poly_impls_match_generic :
    ∀ f ∈ sum_of_poly_fns, ∀ (src0 cpa : ℕ → ℚ) (cutoff : ℚ) (num_points : ℕ),
      f src0 cpa cutoff num_points
        = volk_32f_x3_sum_of_poly_32f_generic src0 cpa cutoff num_points := by
  intro f hf src0 cpa cutoff n
  rw [sum_of_poly_fns_eq_val f hf src0 cpa cutoff n, generic_eq_val]

/-- Witness for C1: the `neonvert` variant on a concrete length-7 input. -/
theorem claim_C1_witness :
    volk_32f_x3_sum_of_poly_32f_neonvert ∈ sum_of_poly_fns ∧
      volk_32f_x3_sum_of_poly_32f_neonvert (fun j => (j : ℚ)) (fun j => (j : ℚ) + 1) 0 7
        = volk_32f_x3_sum_of_poly_32f_generic (fun j => (j : ℚ)) (fun j => (j : ℚ) + 1) 0 7 :=
  ⟨by simp [sum_of_poly_fns],
   claim_C1_sum_of_poly_impls_match_generic _ (by simp [sum_of_poly_fns]) _ _ _ _⟩

/-- C2: for every machine configuration (compiled-extension mask `archMask
archs`) and every kernel, the generated machine table contains exactly the
order-preserving sublist (a `Sublist`, with a membership characterisation) of
that kernel's priority-ordered implementations whose required mask is a subset
of the compiled mask, and any zero-dependency fallback is always retained. -/
theorem claim_C2_machine_table_filter :
    ∀ (archs : List ℕ) (kernels : List Kernel) (k : Kernel), k ∈ kernels →
      ((k.name, get_impls k.impls (archMask archs))
          ∈ (make_volk_machine archs kernels).tables
        ∧ (get_impls k.impls (archMask archs)).Sublist k.impls
        ∧ (∀ i : Impl, i ∈ get_impls k.impls (archMask archs)
            ↔ i ∈ k.impls ∧ maskSubB (reqMask i) (archMask archs) = true)
        ∧ ∀ g ∈ k.impls, reqMask g = 0 → g ∈ get_impls k.impls (archMask archs)) := by
  intro archs kernels k hk
  refine ⟨?_, ?_, ?_, ?_⟩
  · unfold make_volk_machine
    exact List.mem_map_of_mem _ hk
  · exact List.filter_sublist k.impls
  · intro i
    exact List.mem_filter
  · intro g hg h0
    exact List.mem_filter.mpr ⟨hg, by rw [reqMask] at h0 ⊢; rw [h0]; exact maskSubB_of_zero _⟩

/-- Witness for C2: the sum-of-poly kernel in a machine compiled with all five
architecture bits. -/
theorem claim_C2_witness :
    volk_32f_x3_sum_of_poly_32f_kernel ∈ volk_kernels ∧
      ((volk_32f_x3_sum_of_poly_32f_kernel.name,
          get_impls volk_32f_x3_sum_of_poly_32f_kernel.impls
            (archMask [LV_SSE, LV_SSE3, LV_AVX, LV_FMA, LV_NEON]))
          ∈ (make_volk_machine [LV_SSE, LV_SSE3, LV_AVX, LV_FMA, LV_NEON]
              volk_kernels).tables
        ∧ (get_impls volk_32f_x3_sum_of_poly_32f_kernel.impls
            (archMask [LV_SSE, LV_SSE3, LV_AVX, LV_FMA, LV_NEON])).Sublist
            volk_32f_x3_sum_of_poly_32f_kernel.impls
        ∧ (∀ i : Impl, i ∈ get_impls volk_32f_x3_sum_of_poly_32f_kernel.impls
              (archMask [LV_SSE, LV_SSE3, LV_AVX, LV_FMA, LV_NEON])
            ↔ i ∈ volk_32f_x3_sum_of_poly_32f_kernel.impls
              ∧ maskSubB (reqMask i)
                  (archMask [LV_SSE, LV_SSE3, LV_AVX, LV_FMA, LV_NEON]) = true)
        ∧ ∀ g ∈ volk_32f_x3_sum_of_poly_32f_kernel.impls, reqMask g = 0 →
            g ∈ get_impls volk_32f_x3_sum_of_poly_32f_kernel.impls
              (archMask [LV_SSE, LV_SSE3, LV_AVX, LV_FMA, LV_NEON])) :=
  ⟨List.mem_cons_self _ _,
   claim_C2_machine_table_filter _ _ _ (List.mem_cons_self _ _)⟩

/-- C3: in every generated machine descriptor, every listed implementation's
required-extension mask is a subset (bitwise) of the descriptor's
compiled-extension mask. -/
theorem claim_C3_masks_subset_caps :
    ∀ (archs : List ℕ) (kernels : List Kernel) (entry : String × List Impl),
      entry ∈ (make_volk_machine archs kernels).tables →
      ∀ i ∈ entry.2, reqMask i &&& (make_volk_machine archs kernels).caps = reqMask i := by
  intro archs kernels entry hentry i hi
  unfold make_volk_machine at hentry ⊢
  rcases List.mem_map.mp hentry with ⟨k, hk, rfl⟩
  have h2 := (List.mem_filter.mp hi).2
  simpa [maskSubB] using h2

/-- Witness for C3: the generic entry of the sum-of-poly table in the
all-extensions machine. -/
theorem claim_C3_witness :
    (("volk_32f_x3_sum_of_poly_32f",
        get_impls volk_32f_x3_sum_of_poly_32f_kernel.impls
          (archMask [LV_SSE, LV_SSE3, LV_AVX, LV_FMA, LV_NEON]))
        ∈ (make_volk_machine [LV_SSE, LV_SSE3, LV_AVX, LV_FMA, LV_NEON]
            volk_kernels).tables)
      ∧ impl_sum_generic ∈ (get_impls volk_32f_x3_sum_of_poly_32f_kernel.impls
          (archMask [LV_SSE, LV_SSE3, LV_AVX, LV_FMA, LV_NEON]))
      ∧ reqMask impl_sum_generic &&&
          (make_volk_machine [LV_SSE, LV_SSE3, LV_AVX, LV_FMA, LV_NEON]
            volk_kernels).caps = reqMask impl_sum_generic :=
  ⟨by decide, by decide,
   claim_C3_masks_subset_caps [LV_SSE, LV_SSE3, LV_AVX, LV_FMA, LV_NEON] volk_kernels
     ("volk_32f_x3_sum_of_poly_32f",
      get_impls volk_32f_x3_sum_of_poly_32f_kernel.impls
        (archMask [LV_SSE, LV_SSE3, LV_AVX, LV_FMA, LV_NEON]))
     (by decide) impl_sum_generic (by decide)⟩

/-- C4: for every kernel found in the sources, exactly one implementation has an
empty required-extension mask (the universal generic fallback) and that
fallback is last in the kernel's priority order. -/
theorem claim_C4_unique_fallback_last :
    ∀ k ∈ volk_kernels,
      k.impls.countP (fun i => reqMask i == 0) = 1
        ∧ Option.map reqMask k.impls.getLast? = some 0 := by
  decide

/-- Witness for C4: the sum-of-poly kernel. -/
theorem claim_C4_witness :
    volk_32f_x3_sum_of_poly_32f_kernel ∈ volk_kernels ∧
      (volk_32f_x3_sum_of_poly_32f_kernel.impls.countP (fun i => reqMask i == 0) = 1
        ∧ Option.map reqMask volk_32f_x3_sum_of_poly_32f_kernel.impls.getLast?
            = some 0) :=
  ⟨List.mem_cons_self _ _,
   claim_C4_unique_fallback_last _ (List.mem_cons_self _ _)⟩

/-- C5: resolution is monotone in the capability mask: if `M1 ⊆ M2` (as
bitsets) then the implementation selected under `M2` sits at a priority rank no
worse (no larger index) than the one selected under `M1`. -/
theorem claim_C5_resolution_monotone :
    ∀ (k : Kernel) (M1 M2 : ℕ), maskSubB M1 M2 = true →
      ∀ i1 : ℕ, resolveIdx k M1 = some i1 →
        ∃ i2, resolveIdx k M2 = some i2 ∧ i2 ≤ i1 := by
  intro k M1 M2 hsub i1 h1
  exact resolveIdxList_mono hsub k.impls i1 h1

/-- Witness for C5: the sum-of-poly kernel under the empty and the full
capability mask. -/
theorem claim_C5_witness :
    maskSubB 0 (archMask [LV_SSE, LV_SSE3, LV_AVX, LV_FMA, LV_NEON]) = true ∧
      resolveIdx volk_32f_x3_sum_of_poly_32f_kernel 0 = some 7 ∧
      ∃ i2, resolveIdx volk_32f_x3_sum_of_poly_32f_kernel
          (archMask [LV_SSE, LV_SSE3, LV_AVX, LV_FMA, LV_NEON]) = some i2 ∧ i2 ≤ 7 :=
  ⟨by decide, by decide,
   claim_C5_resolution_monotone volk_32f_x3_sum_of_poly_32f_kernel 0
     (archMask [LV_SSE, LV_SSE3, LV_AVX, LV_FMA, LV_NEON]) (by decide) 7 (by decide)⟩

/-- C6: for a kernel whose implementation list has exactly one zero-dependency
implementation, sitting last (the fallback invariant), resolving with the empty
capability mask selects exactly that fallback, and resolution succeeds for
every capability mask because the fallback is always eligible. -/
theorem claim_C6_empty_mask_selects_fallback :
    ∀ (k : Kernel) (g : Impl),
      k.impls.countP (fun i => reqMask i == 0) = 1 →
      k.impls.getLast? = some g → reqMask g = 0 →
      resolve k 0 = some g ∧ ∀ cap : ℕ, ∃ i, resolve k cap = some i := by
  intro k g hcount hlast hg
  constructor
  · exact resolveList_zero_getLast k.impls g hcount hlast hg
  · intro cap
    exact resolveList_isSome cap k.impls g (List.mem_of_mem_getLast? hlast) hg

/-- Witness for C6: the deinterleave kernel and its generic fallback. -/
theorem claim_C6_witness :
    volk_32fc_deinterleave_32f_x2_kernel.impls.countP (fun i => reqMask i == 0) = 1 ∧
      volk_32fc_deinterleave_32f_x2_kernel.impls.getLast? = some impl_deint_generic ∧
      reqMask impl_deint_generic = 0 ∧
      (resolve volk_32fc_deinterleave_32f_x2_kernel 0 = some impl_deint_generic
        ∧ ∀ cap : ℕ, ∃ i, resolve volk_32fc_deinterleave_32f_x2_kernel cap = some i) :=
  ⟨by decide, by decide, by decide,
   claim_C6_empty_mask_selects_fallback _ _ (by decide) (by decide) (by decide)⟩

/-- C7: the unaligned call path only ever selects implementations with no
alignment requirement, whatever the capability mask.  (The complementary fact
that the `u_` variant bodies move the same values as the aligned ones — they
differ only in using alignment-free loads — is the content of their shared
embeddings above.) -/
theorem claim_C7_unaligned_path_selects_unaligned :
    ∀ (k : Kernel) (cap : ℕ) (i : Impl),
      resolve_u k cap = some i → i.is_aligned = false := by
  intro k cap i h
  unfold resolve_u at h
  rcases resolveList_mem cap _ i h with ⟨hm, _⟩
  have := List.of_mem_filter hm
  simpa using this

/-- Witness for C7: the sum-of-poly kernel under the full capability mask
selects the unaligned FMA variant on the unaligned path. -/
theorem claim_C7_witness :
    resolve_u volk_32f_x3_sum_of_poly_32f_kernel
        (archMask [LV_SSE, LV_SSE3, LV_AVX, LV_FMA, LV_NEON])
        = some impl_sum_u_avx_fma ∧
      impl_sum_u_avx_fma.is_aligned = false :=
  ⟨by decide,
   claim_C7_unaligned_path_selects_unaligned volk_32f_x3_sum_of_poly_32f_kernel
     (archMask [LV_SSE, LV_SSE3, LV_AVX, LV_FMA, LV_NEON]) impl_sum_u_avx_fma
     (by decide)⟩

/-- C8: all implementation variants of a kernel share one call signature — they
are values of one function type, collected in `sum_of_poly_fns` respectively
`deinterleave_fns` — and any one can be substituted for any other behind the
dispatcher: on every input, any two variants of the same kernel produce the
same result. -/
theorem claim_C8_signatures_interchangeable :
    (∀ f ∈ sum_of_poly_fns, ∀ g ∈ sum_of_poly_fns,
        ∀ (src0 cpa : ℕ → ℚ) (cutoff : ℚ) (num_points : ℕ),
          f src0 cpa cutoff num_points = g src0 cpa cutoff num_points)
      ∧ ∀ (α : Type), ∀ f ∈ deinterleave_fns α, ∀ g ∈ deinterleave_fns α,
          ∀ (cv : ℕ → α × α) (num_points : ℕ), f cv num_points = g cv num_points := by
  constructor
  · intro f hf g hg src0 cpa cutoff n
    rw [sum_of_poly_fns_eq_val f hf src0 cpa cutoff n,
      sum_of_poly_fns_eq_val g hg src0 cpa cutoff n]
  · intro α f hf g hg cv n
    rw [deinterleave_fns_eq_spec α f hf cv n, deinterleave_fns_eq_spec α g hg cv n]

/-- Witness for C8: substituting the SSE3 variant for the NEON variant on a
concrete input, and the SSE deinterleave for the NEON one. -/
theorem claim_C8_witness :
    volk_32f_x3_sum_of_poly_32f_a_sse3 ∈ sum_of_poly_fns ∧
      volk_32f_x3_sum_of_poly_32f_a_neon ∈ sum_of_poly_fns ∧
      volk_32f_x3_sum_of_poly_32f_a_sse3 (fun _ => 1) (fun _ => 1) 0 9
        = volk_32f_x3_sum_of_poly_32f_a_neon (fun _ => 1) (fun _ => 1) 0 9 ∧
      volk_32fc_deinterleave_32f_x2_a_sse (α := ℚ) ∈ deinterleave_fns ℚ ∧
      volk_32fc_deinterleave_32f_x2_neon (α := ℚ) ∈ deinterleave_fns ℚ ∧
      volk_32fc_deinterleave_32f_x2_a_sse (fun j => ((j : ℚ), (j : ℚ) + 1)) 5
        = volk_32fc_deinterleave_32f_x2_neon (fun j => ((j : ℚ), (j : ℚ) + 1)) 5 :=
  ⟨by simp [sum_of_poly_fns], by simp [sum_of_poly_fns],
   claim_C8_signatures_interchangeable.1 _ (by simp [sum_of_poly_fns]) _
     (by simp [sum_of_poly_fns]) _ _ _ _,
   by simp [deinterleave_fns], by simp [deinterleave_fns],
   claim_C8_signatures_interchangeable.2 ℚ _ (by simp [deinterleave_fns]) _
     (by simp [deinterleave_fns]) _ _⟩

/-- C9: every implementation variant of `volk_32fc_deinterleave_32f_x2` (AVX
aligned, AVX unaligned, SSE, NEON) is extensionally equal — element for
element, with no arithmetic performed (the embedding is polymorphic in the
element type) — to the generic implementation, and the generic implementation
writes exactly the real parts to `iBuffer` and the imaginary parts to
`qBuffer` (the `deinterleaveSpec` refinement). -/
theorem claim_C9_deinterleave_bit_exact :
    ∀ (α : Type) (cv : ℕ → α × α) (num_points : ℕ),
      volk_32fc_deinterleave_32f_x2_a_avx cv num_points
          = volk_32fc_deinterleave_32f_x2_generic cv num_points
        ∧ volk_32fc_deinterleave_32f_x2_u_avx cv num_points
          = volk_32fc_deinterleave_32f_x2_generic cv num_points
        ∧ volk_32fc_deinterleave_32f_x2_a_sse cv num_points
          = volk_32fc_deinterleave_32f_x2_generic cv num_points
        ∧ volk_32fc_deinterleave_32f_x2_neon cv num_points
          = volk_32fc_deinterleave_32f_x2_generic cv num_points
        ∧ volk_32fc_deinterleave_32f_x2_generic cv num_points
          = deinterleaveSpec cv num_points := by
  intro α cv n
  exact ⟨a_avx_deint_eq cv n, u_avx_deint_eq cv n, a_sse_deint_eq cv n,
    neon_deint_eq cv n, generic_deint_eq_spec cv n⟩

/-- C10: with `num_points = 0`, every implementation of
`volk_32f_x3_sum_of_poly_32f` writes exactly `0` to the target — for every
input buffer (so no element of `src0` influences the result; in the rational
model every coefficient value, including `center_point_array[4]`, is finite).
-/
theorem claim_C10_zero_points_writes_zero :
    ∀ f ∈ sum_of_poly_fns, ∀ (src0 cpa : ℕ → ℚ) (cutoff : ℚ),
      f src0 cpa cutoff 0 = 0 := by
  intro f hf src0 cpa cutoff
  rw [sum_of_poly_fns_eq_val f hf src0 cpa cutoff 0]
  simp [sumOfPolyVal]

/-- Witness for C10: the SSE3 variant at `num_points = 0`. -/
theorem claim_C10_witness :
    volk_32f_x3_sum_of_poly_32f_a_sse3 ∈ sum_of_poly_fns ∧
      volk_32f_x3_sum_of_poly_32f_a_sse3 (fun j => (j : ℚ) + 5) (fun _ => 3) 2 0 = 0 :=
  ⟨by simp [sum_of_poly_fns],
   claim_C10_zero_points_writes_zero _ (by simp [sum_of_poly_fns]) _ _ _⟩
